import Mathlib

/-!
Error listeners of the Go runtime (package `error`, file `ErrorListener.go`)

A shallow embedding of the three listener types of the file and of their
methods, followed by the properties of the listener contract.

Conventions of the embedding.

* A Go pointer or interface value (`*antlr4.Parser`, `*dfa.DFA`,
  `*antlr4.BitSet`, `*atn.ATNConfigSet`, `*RecognitionException`,
  `interface{}`) is a `Ref`: `none` is `nil`, `some a` is a reference to the
  object `a`.  The listeners never look inside these objects.
* A Go slice is a `Slice`: `none` is the nil slice, `some xs` a slice that is
  present, possibly of length 0.
* Go `int` is `Int`, `string` is `String`, `bool` is `Bool`.
* A method is a function from the `World` before the call to a `Result`: the
  world after the call and the value of the panic that ended it, if any.
* The `for _, d := range ... { d.m(args) }` loop of the proxy is `forward`;
  besides the world it returns the list of the delegate calls it made.
-/

namespace Antlr4Error

/-- Go pointer or interface value: `none` is `nil`. -/
abbrev Ref := Option Nat

/-- Go slice: `none` is the nil slice, `some xs` a present slice. -/
abbrev Slice (α : Type) := Option (List α)

/-- Elements a `range` loop visits: none for the nil slice. -/
def Slice.elems {α : Type} : Slice α → List α
  | none => []
  | some xs => xs

/-- Go `len`: 0 for the nil slice. -/
def Slice.len {α : Type} (s : Slice α) : Nat := s.elems.length

/-- Everything a listener could be observed to change: the text written so far
on the two output streams of the process. -/
structure World where
  stdout : String
  stderr : String
  deriving DecidableEq, Repr

/-- Outcome of a method call: the world it leaves, and the panic value if the
call ended in a panic. -/
structure Result where
  world : World
  panic : Option String
  deriving DecidableEq, Repr

/-- One of the four operations together with the arguments of the call. -/
inductive Event where
  | syntaxError (recognizer offendingSymbol : Ref) (line column : Int) (msg : String) (e : Ref)
  | reportAmbiguity (recognizer dfa : Ref) (startIndex stopIndex : Int) (exact : Bool)
      (ambigAlts configs : Ref)
  | reportAttemptingFullContext (recognizer dfa : Ref) (startIndex stopIndex : Int)
      (conflictingAlts configs : Ref)
  | reportContextSensitivity (recognizer dfa : Ref) (startIndex stopIndex prediction : Int)
      (configs : Ref)
  deriving DecidableEq, Repr

/-! ## ErrorListener: the empty default implementation -/

/-- The source declares `type ErrorListener struct {}`: a struct without fields. -/
structure ErrorListener where
  deriving DecidableEq, Repr

/-- `NewErrorListener` returns `new(ErrorListener)`. -/
def NewErrorListener : ErrorListener := {}

/-- Empty method body. -/
def ErrorListener.syntaxError (_this : ErrorListener) (_recognizer _offendingSymbol : Ref)
    (_line _column : Int) (_msg : String) (_e : Ref) (w : World) : Result :=
  ⟨w, none⟩

/-- Empty method body. -/
def ErrorListener.reportAmbiguity (_this : ErrorListener) (_recognizer _dfa : Ref)
    (_startIndex _stopIndex : Int) (_exact : Bool) (_ambigAlts _configs : Ref) (w : World) :
    Result :=
  ⟨w, none⟩

/-- Empty method body. -/
def ErrorListener.reportAttemptingFullContext (_this : ErrorListener) (_recognizer _dfa : Ref)
    (_startIndex _stopIndex : Int) (_conflictingAlts _configs : Ref) (w : World) : Result :=
  ⟨w, none⟩

/-- Empty method body. -/
def ErrorListener.reportContextSensitivity (_this : ErrorListener) (_recognizer _dfa : Ref)
    (_startIndex _stopIndex _prediction : Int) (_configs : Ref) (w : World) : Result :=
  ⟨w, none⟩

/-- The operation of `ErrorListener` that an event names, applied to the
arguments the event carries. -/
def ErrorListener.handle (this : ErrorListener) : Event → World → Result
  | .syntaxError recognizer offendingSymbol line column msg e =>
    this.syntaxError recognizer offendingSymbol line column msg e
  | .reportAmbiguity recognizer dfa startIndex stopIndex exact ambigAlts configs =>
    this.reportAmbiguity recognizer dfa startIndex stopIndex exact ambigAlts configs
  | .reportAttemptingFullContext recognizer dfa startIndex stopIndex conflictingAlts configs =>
    this.reportAttemptingFullContext recognizer dfa startIndex stopIndex conflictingAlts configs
  | .reportContextSensitivity recognizer dfa startIndex stopIndex prediction configs =>
    this.reportContextSensitivity recognizer dfa startIndex stopIndex prediction configs

/-! ## ConsoleErrorListener -/

/-- The source declares `type ConsoleErrorListener struct { ErrorListener }`. -/
structure ConsoleErrorListener where
  toErrorListener : ErrorListener
  deriving DecidableEq, Repr

/-- `NewConsoleErrorListener` returns `new(ConsoleErrorListener)`. -/
def NewConsoleErrorListener : ConsoleErrorListener := ⟨{}⟩

/-- The default instance of the source. -/
def ConsoleErrorListenerINSTANCE : ConsoleErrorListener := NewConsoleErrorListener

/-- Value of Go type `error` as `fmt.Errorf` builds it: it keeps the format
string it was built from (the call in this file passes no operands). -/
structure GoError where
  format : String
  deriving DecidableEq, Repr

/-- Go `fmt.Errorf(format)`: builds and returns an error value.  It writes to no
stream, so the world is returned as it was. -/
def fmt.Errorf (format : String) (w : World) : GoError × World :=
  (⟨format⟩, w)

/-- The argument expression of the source,
`"line " + line + ":" + column + " " + msg`, with the integers in decimal. -/
def ConsoleErrorListener.syntaxErrorText (line column : Int) (msg : String) : String :=
  "line " ++ toString line ++ ":" ++ toString column ++ " " ++ msg

/-- The body of the source is the single statement
`fmt.Errorf("line " + line + ":" + column + " " + msg)`: the error value is built
and dropped. -/
def ConsoleErrorListener.syntaxError (_this : ConsoleErrorListener)
    (_recognizer _offendingSymbol : Ref) (line column : Int) (msg : String) (_e : Ref)
    (w : World) : Result :=
  let r := fmt.Errorf (ConsoleErrorListener.syntaxErrorText line column msg) w
  ⟨r.2, none⟩

/-- The operation of `ConsoleErrorListener` that an event names: `syntaxError` is
its own method, the other three are promoted from the embedded `ErrorListener`. -/
def ConsoleErrorListener.handle (this : ConsoleErrorListener) : Event → World → Result
  | .syntaxError recognizer offendingSymbol line column msg e =>
    this.syntaxError recognizer offendingSymbol line column msg e
  | .reportAmbiguity recognizer dfa startIndex stopIndex exact ambigAlts configs =>
    this.toErrorListener.reportAmbiguity recognizer dfa startIndex stopIndex exact ambigAlts
      configs
  | .reportAttemptingFullContext recognizer dfa startIndex stopIndex conflictingAlts configs =>
    this.toErrorListener.reportAttemptingFullContext recognizer dfa startIndex stopIndex
      conflictingAlts configs
  | .reportContextSensitivity recognizer dfa startIndex stopIndex prediction configs =>
    this.toErrorListener.reportContextSensitivity recognizer dfa startIndex stopIndex prediction
      configs

/-! ## ProxyErrorListener -/

/-- A delegate call made by a forwarding loop: the receiver and the operation
with its arguments. -/
structure Call (D : Type) where
  receiver : D
  event : Event
  deriving DecidableEq, Repr

/-- Outcome of a forwarding loop: the delegate calls it made, in the order it
made them, the world it leaves and the panic that ended it, if any. -/
structure Run (D : Type) where
  calls : List (Call D)
  world : World
  panic : Option String
  deriving DecidableEq, Repr

/-- What the operation named by an event does on a receiver of type `D`. -/
abbrev Handler (D : Type) := D → Event → World → Result

/-- The loop `for _, d := range delegates { d.m(args) }`, where `h d E` is the
call `d.m(args)`.  The loop body holds no `recover`, so a panic of a call ends
the loop and is the panic of the loop. -/
def forward {D : Type} (h : Handler D) (E : Event) : List D → World → Run D
  | [], w => ⟨[], w, none⟩
  | d :: rest, w =>
    let r := h d E w
    match r.panic with
    | some v => ⟨[⟨d, E⟩], r.world, some v⟩
    | none =>
      let rs := forward h E rest r.world
      ⟨⟨d, E⟩ :: rs.calls, rs.world, rs.panic⟩

/-- The source declares
`type ProxyErrorListener struct { ErrorListener; delegates []ErrorListener }`. -/
structure ProxyErrorListener where
  toErrorListener : ErrorListener
  delegates : Slice ErrorListener
  deriving DecidableEq, Repr

/-- The constructor of the source: panics with `"delegates is not provided"` when
`delegates == nil`, otherwise stores the slice in a fresh struct and returns it.
(The source declares the result type `*ConsoleErrorListener`; the value it
returns is the `*ProxyErrorListener` it has just built.) -/
def NewProxyErrorListener (delegates : Slice ErrorListener) : Except String ProxyErrorListener :=
  if delegates = none then
    .error "delegates is not provided"
  else
    let l : ProxyErrorListener := ⟨{}, none⟩
    .ok { l with delegates := delegates }

/-- Forwards `syntaxError` to every delegate, in slice order. -/
def ProxyErrorListener.syntaxError (this : ProxyErrorListener) (recognizer offendingSymbol : Ref)
    (line column : Int) (msg : String) (e : Ref) (w : World) : Run ErrorListener :=
  forward ErrorListener.handle (.syntaxError recognizer offendingSymbol line column msg e)
    this.delegates.elems w

/-- Forwards `reportAmbiguity` to every delegate, in slice order. -/
def ProxyErrorListener.reportAmbiguity (this : ProxyErrorListener) (recognizer dfa : Ref)
    (startIndex stopIndex : Int) (exact : Bool) (ambigAlts configs : Ref) (w : World) :
    Run ErrorListener :=
  forward ErrorListener.handle
    (.reportAmbiguity recognizer dfa startIndex stopIndex exact ambigAlts configs)
    this.delegates.elems w

/-- Forwards `reportAttemptingFullContext` to every delegate, in slice order. -/
def ProxyErrorListener.reportAttemptingFullContext (this : ProxyErrorListener)
    (recognizer dfa : Ref) (startIndex stopIndex : Int) (conflictingAlts configs : Ref)
    (w : World) : Run ErrorListener :=
  forward ErrorListener.handle
    (.reportAttemptingFullContext recognizer dfa startIndex stopIndex conflictingAlts configs)
    this.delegates.elems w

/-- Forwards `reportContextSensitivity` to every delegate, in slice order. -/
def ProxyErrorListener.reportContextSensitivity (this : ProxyErrorListener)
    (recognizer dfa : Ref) (startIndex stopIndex prediction : Int) (configs : Ref)
    (w : World) : Run ErrorListener :=
  forward ErrorListener.handle
    (.reportContextSensitivity recognizer dfa startIndex stopIndex prediction configs)
    this.delegates.elems w

/-- The operation of `ProxyErrorListener` that an event names, applied to the
arguments the event carries. -/
def ProxyErrorListener.handle (this : ProxyErrorListener) : Event → World → Run ErrorListener
  | .syntaxError recognizer offendingSymbol line column msg e =>
    this.syntaxError recognizer offendingSymbol line column msg e
  | .reportAmbiguity recognizer dfa startIndex stopIndex exact ambigAlts configs =>
    this.reportAmbiguity recognizer dfa startIndex stopIndex exact ambigAlts configs
  | .reportAttemptingFullContext recognizer dfa startIndex stopIndex conflictingAlts configs =>
    this.reportAttemptingFullContext recognizer dfa startIndex stopIndex conflictingAlts configs
  | .reportContextSensitivity recognizer dfa startIndex stopIndex prediction configs =>
    this.reportContextSensitivity recognizer dfa startIndex stopIndex prediction configs

/-- A call of one of the four methods through the pointer `this`, as a state
transformer: the struct `this` points to after the call, and the run of the
call.  The four bodies read `this.delegates` and assign to no field of `this`;
the loop variable `d` is a copy of the slice element and the delegate call has
that copy as its receiver, so no element of the slice is written either. -/
def ProxyErrorListener.call (this : ProxyErrorListener) (E : Event) (w : World) :
    ProxyErrorListener × Run ErrorListener :=
  (this, this.handle E w)

/-! ## A listener used to exercise the failure path of the loop -/

/-- A test listener: `quiet tag` writes its tag to the error stream and returns,
`failing v` writes nothing and panics with `v`. -/
inductive Probe where
  | quiet (tag : String)
  | failing (v : String)
  deriving DecidableEq, Repr

/-- The four operations of a `Probe` do the same thing whatever the event. -/
def Probe.handle : Handler Probe
  | .quiet tag, _, w => ⟨{ w with stderr := w.stderr ++ tag }, none⟩
  | .failing v, _, w => ⟨w, some v⟩

/-- The syntax error event of line 3, column 7, with nil references. -/
def sampleEvent : Event := .syntaxError none none 3 7 "mismatched input" none

/-- A world in which nothing has been written yet. -/
def emptyWorld : World := ⟨"", ""⟩

/-! ## Lemmas on the forwarding loop -/

theorem ErrorListener.handle_eq (d : ErrorListener) (E : Event) (w : World) :
    d.handle E w = ⟨w, none⟩ := by
  cases E <;> rfl

theorem ProxyErrorListener.handle_eq_forward (p : ProxyErrorListener) (E : Event) (w : World) :
    p.handle E w = forward ErrorListener.handle E p.delegates.elems w := by
  cases E <;> rfl

theorem forward_nil {D : Type} (h : Handler D) (E : Event) (w : World) :
    forward h E [] w = ⟨[], w, none⟩ := rfl

theorem forward_cons_ok {D : Type} (h : Handler D) (E : Event) (d : D) (rest : List D)
    (w : World) (hd : (h d E w).panic = none) :
    forward h E (d :: rest) w =
      ⟨⟨d, E⟩ :: (forward h E rest (h d E w).world).calls,
        (forward h E rest (h d E w).world).world,
        (forward h E rest (h d E w).world).panic⟩ := by
  simp only [forward, hd]

theorem forward_cons_panic {D : Type} (h : Handler D) (E : Event) (d : D) (rest : List D)
    (w : World) (v : String) (hd : (h d E w).panic = some v) :
    forward h E (d :: rest) w = ⟨[⟨d, E⟩], (h d E w).world, some v⟩ := by
  simp only [forward, hd]

/-- A loop over `xs ++ ys` is the loop over `xs`, followed by the loop over `ys`
when the first one did not panic. -/
theorem forward_append {D : Type} (h : Handler D) (E : Event) (xs ys : List D) (w : World) :
    forward h E (xs ++ ys) w =
      match (forward h E xs w).panic with
      | some _ => forward h E xs w
      | none =>
        ⟨(forward h E xs w).calls ++ (forward h E ys (forward h E xs w).world).calls,
          (forward h E ys (forward h E xs w).world).world,
          (forward h E ys (forward h E xs w).world).panic⟩ := by
  induction xs generalizing w with
  | nil => simp [forward_nil]
  | cons d rest ih =>
    cases hd : (h d E w).panic with
    | some v => simp [forward_cons_panic h E d _ w v hd]
    | none =>
      simp only [List.cons_append, forward_cons_ok h E d _ w hd, ih]
      cases hp : (forward h E rest (h d E w).world).panic <;> simp [hp]

/-- When no delegate panics, the loop calls every delegate, in order, and does
not panic. -/
theorem forward_of_no_panic {D : Type} (h : Handler D) (E : Event) (ds : List D) (w : World)
    (hok : ∀ d ∈ ds, ∀ w', (h d E w').panic = none) :
    (forward h E ds w).calls = ds.map (fun d => Call.mk d E) ∧ (forward h E ds w).panic = none := by
  induction ds generalizing w with
  | nil => simp [forward_nil]
  | cons d rest ih =>
    have hd : (h d E w).panic = none := hok d (List.mem_cons_self _ _) w
    have hrest := ih (h d E w).world (fun x hx => hok x (List.mem_cons_of_mem _ hx))
    rw [forward_cons_ok h E d rest w hd]
    simp [hrest.1, hrest.2]

/-- A panic of the loop is the panic of one of the delegate calls. -/
theorem forward_panic_origin {D : Type} (h : Handler D) (E : Event) (ds : List D) (w : World)
    (v : String) (hv : (forward h E ds w).panic = some v) :
    ∃ d ∈ ds, ∃ w', (h d E w').panic = some v := by
  induction ds generalizing w with
  | nil => simp [forward_nil] at hv
  | cons d rest ih =>
    cases hd : (h d E w).panic with
    | some u =>
      rw [forward_cons_panic h E d rest w u hd] at hv
      simp only [Option.some.injEq] at hv
      exact ⟨d, List.mem_cons_self _ _, w, by rw [hd, hv]⟩
    | none =>
      rw [forward_cons_ok h E d rest w hd] at hv
      obtain ⟨x, hx, w', hw'⟩ := ih (h d E w).world hv
      exact ⟨x, List.mem_cons_of_mem _ hx, w', hw'⟩

/-- Every call the loop makes carries the event the loop was started with, and
the receivers are a prefix of the delegate list. -/
theorem forward_calls_take {D : Type} (h : Handler D) (E : Event) (ds : List D) (w : World) :
    ∃ n, (forward h E ds w).calls = (ds.take n).map (fun d => Call.mk d E) := by
  induction ds generalizing w with
  | nil => exact ⟨0, by simp [forward_nil]⟩
  | cons d rest ih =>
    cases hd : (h d E w).panic with
    | some u => exact ⟨1, by simp [forward_cons_panic h E d rest w u hd]⟩
    | none =>
      obtain ⟨n, hn⟩ := ih (h d E w).world
      exact ⟨n + 1, by simp [forward_cons_ok h E d rest w hd, hn]⟩

/-- A loop that ended without a panic has called every delegate, in order. -/
theorem forward_calls_of_ok {D : Type} (h : Handler D) (E : Event) (ds : List D) (w : World)
    (hok : (forward h E ds w).panic = none) :
    (forward h E ds w).calls = ds.map (fun d => Call.mk d E) := by
  induction ds generalizing w with
  | nil => simp [forward_nil]
  | cons d rest ih =>
    cases hd : (h d E w).panic with
    | some u => simp [forward_cons_panic h E d rest w u hd] at hok
    | none =>
      rw [forward_cons_ok h E d rest w hd] at hok ⊢
      simp [ih (h d E w).world hok]

/-! ## The listener contract -/

/-- C1: for a non-empty delegate sequence `[d1,...,dn]` and each of the four
operations, when no delegate fails, one call of the operation on the proxy makes
exactly `n` delegate calls, the `i`-th being the same operation on `di` with the
arguments the proxy received, and the proxy does not fail.  First conjunct: the
forwarding loop, for delegates of any type and any behaviour of their
operations.  Second conjunct: the four operations of `ProxyErrorListener`. -/
theorem proxy_calls_each_delegate_once_in_order :
    (∀ (D : Type) (h : Handler D) (E : Event) (ds : List D) (w : World),
      ds ≠ [] → (∀ d ∈ ds, ∀ w', (h d E w').panic = none) →
        (forward h E ds w).calls = ds.map (fun d => Call.mk d E) ∧
        (forward h E ds w).calls.length = ds.length ∧
        (forward h E ds w).panic = none) ∧
    (∀ (p : ProxyErrorListener) (ds : List ErrorListener) (E : Event) (w : World),
      p.delegates = some ds → ds ≠ [] →
        (p.handle E w).calls = ds.map (fun d => Call.mk d E) ∧
        (p.handle E w).calls.length = ds.length ∧
        (p.handle E w).panic = none) := by
  constructor
  · intro D h E ds w _ hok
    have hf := forward_of_no_panic h E ds w hok
    exact ⟨hf.1, by rw [hf.1, List.length_map], hf.2⟩
  · intro p ds E w hp _
    have hf := forward_of_no_panic ErrorListener.handle E ds w
      (fun d _ w' => by rw [ErrorListener.handle_eq])
    rw [ProxyErrorListener.handle_eq_forward, hp]
    show (forward ErrorListener.handle E ds w).calls = _ ∧
      (forward ErrorListener.handle E ds w).calls.length = _ ∧
      (forward ErrorListener.handle E ds w).panic = none
    exact ⟨hf.1, by rw [hf.1, List.length_map], hf.2⟩

/-- Witness of C1: a proxy over two default listeners makes two calls of
`syntaxError`, with the arguments it received, and does not fail. -/
theorem proxy_calls_each_delegate_once_in_order_witness :
    (ProxyErrorListener.handle ⟨{}, some [{}, {}]⟩ sampleEvent emptyWorld).calls
        = [⟨{}, sampleEvent⟩, ⟨{}, sampleEvent⟩] ∧
      (ProxyErrorListener.handle ⟨{}, some [{}, {}]⟩ sampleEvent emptyWorld).calls.length = 2 ∧
      (ProxyErrorListener.handle ⟨{}, some [{}, {}]⟩ sampleEvent emptyWorld).panic = none :=
  proxy_calls_each_delegate_once_in_order.2 ⟨{}, some [{}, {}]⟩ [{}, {}] sampleEvent emptyWorld
    rfl (by simp)

/-- C2 fails on the code: the constructor accepts a delegate sequence that is
present and has length 0. -/
theorem NewProxyErrorListener_accepts_empty_sequence :
    NewProxyErrorListener (some []) = .ok ⟨{}, some []⟩ ∧
      NewProxyErrorListener (some []) ≠ .error "delegates is not provided" ∧
      Slice.len (some ([] : List ErrorListener)) = 0 := by
  refine ⟨rfl, ?_, rfl⟩
  intro hcontra
  have hok : NewProxyErrorListener (some []) = .ok ⟨{}, some []⟩ := rfl
  rw [hok] at hcontra
  cases hcontra

/-- C2 as amended: the constructor fails only for the nil sequence.  Every
delegate sequence that is present, of length 0 or more, is accepted and stored
as it is; the constructor returns a panic exactly when the sequence is nil; so
every listener it returns holds the sequence it was given, which is present (not
nil) and may have length 0. -/
theorem NewProxyErrorListener_fails_only_for_nil :
    (∀ (ds : List ErrorListener), NewProxyErrorListener (some ds) = .ok ⟨{}, some ds⟩) ∧
    (∃ p, NewProxyErrorListener (some []) = .ok p ∧ p.delegates = some [] ∧
      p.delegates.len = 0) ∧
    (∀ (delegates : Slice ErrorListener),
      (∃ v, NewProxyErrorListener delegates = .error v) ↔ delegates = none) ∧
    (∀ (delegates : Slice ErrorListener),
      (∃ p, NewProxyErrorListener delegates = .ok p) ↔ ∃ ds, delegates = some ds) ∧
    (∀ (delegates : Slice ErrorListener) (p : ProxyErrorListener),
      NewProxyErrorListener delegates = .ok p →
        p.delegates = delegates ∧ ∃ ds, delegates = some ds) := by
  have hsome : ∀ (ds : List ErrorListener),
      NewProxyErrorListener (some ds) = .ok ⟨{}, some ds⟩ := fun _ => rfl
  have hnone : NewProxyErrorListener none = .error "delegates is not provided" := rfl
  refine ⟨hsome, ⟨⟨{}, some []⟩, rfl, rfl, rfl⟩, ?_, ?_, ?_⟩
  · intro delegates
    cases delegates with
    | none => exact ⟨fun _ => rfl, fun _ => ⟨_, hnone⟩⟩
    | some ds =>
      constructor
      · rintro ⟨v, hv⟩
        rw [hsome] at hv
        cases hv
      · intro hc
        cases hc
  · intro delegates
    cases delegates with
    | none =>
      constructor
      · rintro ⟨p, hp⟩
        rw [hnone] at hp
        cases hp
      · rintro ⟨ds, hds⟩
        cases hds
    | some ds => exact ⟨fun _ => ⟨ds, rfl⟩, fun _ => ⟨_, hsome ds⟩⟩
  · intro delegates p hp
    cases delegates with
    | none =>
      rw [hnone] at hp
      cases hp
    | some ds =>
      rw [hsome] at hp
      cases hp
      exact ⟨rfl, ds, rfl⟩

/-- C3: applied to the nil sequence the constructor panics with
`"delegates is not provided"` and returns no listener. -/
theorem NewProxyErrorListener_nil_panics :
    NewProxyErrorListener none = .error "delegates is not provided" ∧
      ∀ p : ProxyErrorListener, NewProxyErrorListener none ≠ .ok p := by
  refine ⟨rfl, ?_⟩
  intro p hp
  have herr : NewProxyErrorListener none = .error "delegates is not provided" := rfl
  rw [herr] at hp
  cases hp

/-- The loop stops at the first failing call.  Let the delegate sequence be
`pre ++ d :: post`, where the loop over `pre` ends without a failure and the
handler of `d`, called in the world the loop over `pre` leaves, fails with `v`.
Then the loop over the whole sequence has called the delegates of `pre` and then
`d`, each once, in order, with the event it was given; it has called no delegate
of `post`; it fails with exactly `v`; and it leaves the world as `d` left it.
The statement is about the loop, for delegates of any type and any behaviour of
their operations. -/
theorem forward_aborts_on_first_failure {D : Type} (h : Handler D) (E : Event)
    (pre : List D) (d : D) (post : List D) (w : World) (v : String)
    (hpre : (forward h E pre w).panic = none)
    (hfail : (h d E (forward h E pre w).world).panic = some v) :
    (forward h E (pre ++ d :: post) w).calls = (pre ++ [d]).map (fun x => Call.mk x E) ∧
      (forward h E (pre ++ d :: post) w).calls.length = pre.length + 1 ∧
      (forward h E (pre ++ d :: post) w).panic = some v ∧
      (forward h E (pre ++ d :: post) w).world = (h d E (forward h E pre w).world).world := by
  have hcalls := forward_calls_of_ok h E pre w hpre
  have hd := forward_cons_panic h E d post (forward h E pre w).world v hfail
  rw [forward_append, hpre]
  simp only [hd, hcalls]
  refine ⟨by simp, by simp, trivial, trivial⟩

/-- C4 fails on the code: no delegate of the proxy can fail and no operation of
a proxy ever fails; in `[d1, d2, d3]` the third delegate is called and the
caller receives no failure. -/
theorem proxy_never_aborts_forwarding :
    (¬ ∃ (d2 : ErrorListener) (E : Event) (w : World) (v : String),
        (d2.handle E w).panic = some v) ∧
    (¬ ∃ (p : ProxyErrorListener) (E : Event) (w : World) (v : String),
        (p.handle E w).panic = some v) ∧
    (ProxyErrorListener.handle ⟨{}, some [{}, {}, {}]⟩ sampleEvent emptyWorld).calls
      = [⟨{}, sampleEvent⟩, ⟨{}, sampleEvent⟩, ⟨{}, sampleEvent⟩] ∧
    (ProxyErrorListener.handle ⟨{}, some [{}, {}, {}]⟩ sampleEvent emptyWorld).panic = none := by
  refine ⟨?_, ?_, rfl, rfl⟩
  · rintro ⟨d2, E, w, v, hv⟩
    rw [ErrorListener.handle_eq] at hv
    cases hv
  · rintro ⟨p, E, w, v, hv⟩
    have hnone : (p.handle E w).panic = none := by
      rw [ProxyErrorListener.handle_eq_forward]
      exact (forward_of_no_panic ErrorListener.handle E _ w
        (fun d _ w' => by rw [ErrorListener.handle_eq])).2
    rw [hnone] at hv
    cases hv

/-- C4 as amended: the delegates of a proxy are `ErrorListener` values, whose
handlers never fail, so no forward is ever aborted: for every proxy, each of the
four operations and every event, the proxy calls every delegate of its sequence
once, in order, with the event, and does not fail; in `[d1, d2, d3]` all three
delegates observe the event and the caller receives no failure.  Last conjunct:
the loop itself holds no recovery; over delegates whose handler could fail it
stops at the first failing call, having called the delegates up to that one and
none after it, and fails with exactly the value of that call. -/
theorem proxy_forwards_to_all_without_abort :
    (∀ (d : ErrorListener) (E : Event) (w : World), (d.handle E w).panic = none) ∧
    (∀ (p : ProxyErrorListener) (E : Event) (w : World),
      (p.handle E w).calls = p.delegates.elems.map (fun d => Call.mk d E) ∧
      (p.handle E w).calls.length = p.delegates.len ∧
      (p.handle E w).panic = none) ∧
    (∀ (d1 d2 d3 : ErrorListener) (E : Event) (w : World),
      (ProxyErrorListener.handle ⟨{}, some [d1, d2, d3]⟩ E w).calls
        = [⟨d1, E⟩, ⟨d2, E⟩, ⟨d3, E⟩] ∧
      (ProxyErrorListener.handle ⟨{}, some [d1, d2, d3]⟩ E w).panic = none) ∧
    (∀ (D : Type) (h : Handler D) (E : Event) (pre : List D) (d : D) (post : List D)
      (w : World) (v : String),
      (forward h E pre w).panic = none →
      (h d E (forward h E pre w).world).panic = some v →
        (forward h E (pre ++ d :: post) w).calls = (pre ++ [d]).map (fun x => Call.mk x E) ∧
        (forward h E (pre ++ d :: post) w).calls.length = pre.length + 1 ∧
        (forward h E (pre ++ d :: post) w).panic = some v ∧
        (forward h E (pre ++ d :: post) w).world
          = (h d E (forward h E pre w).world).world) := by
  have hd : ∀ (d : ErrorListener) (E : Event) (w : World), (d.handle E w).panic = none :=
    fun d E w => by rw [ErrorListener.handle_eq]
  have hall : ∀ (p : ProxyErrorListener) (E : Event) (w : World),
      (p.handle E w).calls = p.delegates.elems.map (fun d => Call.mk d E) ∧
      (p.handle E w).calls.length = p.delegates.len ∧
      (p.handle E w).panic = none := by
    intro p E w
    have hf := forward_of_no_panic ErrorListener.handle E p.delegates.elems w
      (fun d _ w' => hd d E w')
    rw [ProxyErrorListener.handle_eq_forward]
    exact ⟨hf.1, by rw [hf.1, List.length_map]; rfl, hf.2⟩
  refine ⟨hd, hall, ?_, ?_⟩
  · intro d1 d2 d3 E w
    exact ⟨(hall ⟨{}, some [d1, d2, d3]⟩ E w).1, (hall ⟨{}, some [d1, d2, d3]⟩ E w).2.2⟩
  · intro D h E pre d post w v hpre hfail
    exact forward_aborts_on_first_failure h E pre d post w v hpre hfail

/-- Witness of C4 as amended: a proxy over three default listeners calls all
three and does not fail; a loop over test listeners of which the second fails
calls the first two, not the third, and fails with the value of the second. -/
theorem proxy_forwards_to_all_without_abort_witness :
    ((ProxyErrorListener.handle ⟨{}, some [{}, {}, {}]⟩ sampleEvent emptyWorld).calls
        = [⟨{}, sampleEvent⟩, ⟨{}, sampleEvent⟩, ⟨{}, sampleEvent⟩] ∧
      (ProxyErrorListener.handle ⟨{}, some [{}, {}, {}]⟩ sampleEvent emptyWorld).panic = none) ∧
    ((forward Probe.handle sampleEvent [Probe.quiet "a", Probe.failing "boom", Probe.quiet "c"]
          emptyWorld).calls
        = [⟨Probe.quiet "a", sampleEvent⟩, ⟨Probe.failing "boom", sampleEvent⟩] ∧
      (forward Probe.handle sampleEvent [Probe.quiet "a", Probe.failing "boom", Probe.quiet "c"]
          emptyWorld).calls.length = 2 ∧
      (forward Probe.handle sampleEvent [Probe.quiet "a", Probe.failing "boom", Probe.quiet "c"]
          emptyWorld).panic = some "boom" ∧
      (forward Probe.handle sampleEvent [Probe.quiet "a", Probe.failing "boom", Probe.quiet "c"]
          emptyWorld).world = ⟨"", "a"⟩) :=
  ⟨proxy_forwards_to_all_without_abort.2.2.1 {} {} {} sampleEvent emptyWorld,
    proxy_forwards_to_all_without_abort.2.2.2 Probe Probe.handle sampleEvent [Probe.quiet "a"]
      (Probe.failing "boom") [Probe.quiet "c"] emptyWorld "boom" rfl rfl⟩

/-- A loop over one delegate makes one call, on that delegate, and leaves the
world and ends as that call does. -/
theorem forward_singleton {D : Type} (h : Handler D) (d : D) (E : Event) (w : World) :
    forward h E [d] w = ⟨[⟨d, E⟩], (h d E w).world, (h d E w).panic⟩ := by
  cases hd : (h d E w).panic with
  | some v => rw [forward_cons_panic h E d [] w v hd]
  | none => rw [forward_cons_ok h E d [] w hd]; simp [forward_nil]

/-- C5 fails on the code: a listener whose operation writes to the error stream,
or fails, is an implementation of the four operations that no proxy behaves as:
every proxy leaves the stream empty and does not fail. -/
theorem no_proxy_behaves_as_a_writing_or_failing_listener :
    (Probe.handle (Probe.quiet "a") sampleEvent emptyWorld).world = ⟨"", "a"⟩ ∧
    (¬ ∃ p : ProxyErrorListener,
        (p.handle sampleEvent emptyWorld).world
          = (Probe.handle (Probe.quiet "a") sampleEvent emptyWorld).world) ∧
    (Probe.handle (Probe.failing "boom") sampleEvent emptyWorld).panic = some "boom" ∧
    (¬ ∃ p : ProxyErrorListener,
        (p.handle sampleEvent emptyWorld).panic
          = (Probe.handle (Probe.failing "boom") sampleEvent emptyWorld).panic) := by
  have hw : ∀ (ds : List ErrorListener) (w0 : World),
      (forward ErrorListener.handle sampleEvent ds w0).world = w0 := by
    intro ds
    induction ds with
    | nil => intro w0; rfl
    | cons d rest ih =>
      intro w0
      have hd : (ErrorListener.handle d sampleEvent w0).panic = none := by
        rw [ErrorListener.handle_eq]
      rw [forward_cons_ok ErrorListener.handle sampleEvent d rest w0 hd]
      show (forward ErrorListener.handle sampleEvent rest
        (ErrorListener.handle d sampleEvent w0).world).world = w0
      rw [ih, ErrorListener.handle_eq]
  refine ⟨rfl, ?_, rfl, ?_⟩
  · rintro ⟨p, hp⟩
    rw [ProxyErrorListener.handle_eq_forward, hw] at hp
    have hstderr := congrArg World.stderr hp
    revert hstderr
    decide
  · rintro ⟨p, hp⟩
    have hnone : (p.handle sampleEvent emptyWorld).panic = none := by
      rw [ProxyErrorListener.handle_eq_forward]
      exact (forward_of_no_panic ErrorListener.handle sampleEvent _ emptyWorld
        (fun d _ w' => by rw [ErrorListener.handle_eq])).2
    rw [hnone] at hp
    cases hp

/-- C5 as amended: single-delegate equivalence for the delegates the constructor
can hold.  For every default listener `d` the constructor accepts `[d]`, and each
of the four operations of the listener it returns makes exactly one call, on
`d`, and leaves the world and ends as the same operation of `d` called directly
does.  The delegates of a proxy are `ErrorListener` values: every operation of
every proxy returns the world it was given and does not fail. -/
theorem single_default_delegate_equivalence :
    (∀ (d : ErrorListener) (E : Event) (w : World),
      ∃ p, NewProxyErrorListener (some [d]) = .ok p ∧ p.delegates = some [d] ∧
        (p.handle E w).world = (d.handle E w).world ∧
        (p.handle E w).panic = (d.handle E w).panic ∧
        (p.handle E w).calls = [⟨d, E⟩]) ∧
    (∀ (p : ProxyErrorListener) (E : Event) (w : World),
      (p.handle E w).world = w ∧ (p.handle E w).panic = none) := by
  constructor
  · intro d E w
    refine ⟨⟨{}, some [d]⟩, rfl, rfl, ?_⟩
    rw [ProxyErrorListener.handle_eq_forward]
    show (forward ErrorListener.handle E [d] w).world = _ ∧
      (forward ErrorListener.handle E [d] w).panic = _ ∧
      (forward ErrorListener.handle E [d] w).calls = _
    rw [forward_singleton]
    exact ⟨rfl, rfl, rfl⟩
  · intro p E w
    have hw : ∀ (ds : List ErrorListener) (w0 : World),
        (forward ErrorListener.handle E ds w0).world = w0 := by
      intro ds
      induction ds with
      | nil => intro w0; rfl
      | cons d rest ih =>
        intro w0
        have hd : (ErrorListener.handle d E w0).panic = none := by rw [ErrorListener.handle_eq]
        rw [forward_cons_ok ErrorListener.handle E d rest w0 hd]
        show (forward ErrorListener.handle E rest (ErrorListener.handle d E w0).world).world = w0
        rw [ih, ErrorListener.handle_eq]
    rw [ProxyErrorListener.handle_eq_forward]
    exact ⟨hw _ w, (forward_of_no_panic ErrorListener.handle E _ w
      (fun d _ w' => by rw [ErrorListener.handle_eq])).2⟩

/-- C6 at line 3, column 7, message "mismatched input": the text the contract
asks for is built as the argument of `fmt.Errorf`, but nothing is written: the
call leaves both streams empty, and so it does for every input. -/
theorem ConsoleErrorListener_syntaxError_writes_nothing :
    ConsoleErrorListener.syntaxErrorText 3 7 "mismatched input" = "line 3:7 mismatched input" ∧
      ConsoleErrorListener.syntaxError NewConsoleErrorListener none none 3 7 "mismatched input"
          none emptyWorld = ⟨⟨"", ""⟩, none⟩ ∧
      (ConsoleErrorListener.syntaxError NewConsoleErrorListener none none 3 7 "mismatched input"
          none emptyWorld).world.stderr ≠ "line 3:7 mismatched input" ∧
      ∀ (this : ConsoleErrorListener) (recognizer offendingSymbol : Ref) (line column : Int)
        (msg : String) (e : Ref) (w : World),
        this.syntaxError recognizer offendingSymbol line column msg e w = ⟨w, none⟩ := by
  refine ⟨by decide, rfl, by decide, ?_⟩
  intros
  rfl

/-- C7: for every argument tuple, nil references included, each of the four
operations of the default `ErrorListener` returns the world it was given and does
not fail. -/
theorem ErrorListener_operations_do_nothing :
    (∀ (this : ErrorListener) (recognizer offendingSymbol : Ref) (line column : Int)
        (msg : String) (e : Ref) (w : World),
        this.syntaxError recognizer offendingSymbol line column msg e w = ⟨w, none⟩) ∧
    (∀ (this : ErrorListener) (recognizer dfa : Ref) (startIndex stopIndex : Int) (exact : Bool)
        (ambigAlts configs : Ref) (w : World),
        this.reportAmbiguity recognizer dfa startIndex stopIndex exact ambigAlts configs w
          = ⟨w, none⟩) ∧
    (∀ (this : ErrorListener) (recognizer dfa : Ref) (startIndex stopIndex : Int)
        (conflictingAlts configs : Ref) (w : World),
        this.reportAttemptingFullContext recognizer dfa startIndex stopIndex conflictingAlts
          configs w = ⟨w, none⟩) ∧
    (∀ (this : ErrorListener) (recognizer dfa : Ref) (startIndex stopIndex prediction : Int)
        (configs : Ref) (w : World),
        this.reportContextSensitivity recognizer dfa startIndex stopIndex prediction configs w
          = ⟨w, none⟩) ∧
    (∀ (this : ErrorListener) (E : Event) (w : World),
        (this.handle E w).world = w ∧ (this.handle E w).panic = none) := by
  refine ⟨fun _ _ _ _ _ _ _ _ => rfl, fun _ _ _ _ _ _ _ _ _ => rfl,
    fun _ _ _ _ _ _ _ _ => rfl, fun _ _ _ _ _ _ _ _ => rfl, ?_⟩
  intro this E w
  rw [ErrorListener.handle_eq]
  exact ⟨rfl, rfl⟩

/-- C8: no deduplication.  When no delegate fails, a delegate `d` that occurs at
`k` positions of the delegate sequence is called exactly `k` times with the
event the proxy received, and every call made carries that event.  First
conjunct: the forwarding loop, for delegates of any type.  Second conjunct: the
four operations of `ProxyErrorListener`; third: over `[d, d]` the proxy calls `d`
twice. -/
theorem proxy_does_not_deduplicate :
    (∀ (D : Type) [DecidableEq D] (h : Handler D) (E : Event) (ds : List D) (d : D) (w : World),
      (∀ x ∈ ds, ∀ w', (h x E w').panic = none) →
        (forward h E ds w).calls.count ⟨d, E⟩ = ds.count d ∧
        ((forward h E ds w).calls.map Call.receiver).count d = ds.count d ∧
        ∀ c ∈ (forward h E ds w).calls, c.event = E) ∧
    (∀ (p : ProxyErrorListener) (d : ErrorListener) (E : Event) (w : World),
      (p.handle E w).calls.count ⟨d, E⟩ = p.delegates.elems.count d ∧
        ∀ c ∈ (p.handle E w).calls, c.event = E) ∧
    (∀ (d : ErrorListener) (E : Event) (w : World),
      (ProxyErrorListener.handle ⟨{}, some [d, d]⟩ E w).calls = [⟨d, E⟩, ⟨d, E⟩]) := by
  have hgen : ∀ (D : Type) [DecidableEq D] (h : Handler D) (E : Event) (ds : List D) (d : D)
      (w : World), (∀ x ∈ ds, ∀ w', (h x E w').panic = none) →
        (forward h E ds w).calls.count ⟨d, E⟩ = ds.count d ∧
        ((forward h E ds w).calls.map Call.receiver).count d = ds.count d ∧
        ∀ c ∈ (forward h E ds w).calls, c.event = E := by
    intro D _ h E ds d w hok
    have hcalls := (forward_of_no_panic h E ds w hok).1
    rw [hcalls]
    refine ⟨?_, ?_, ?_⟩
    · clear hok hcalls
      induction ds with
      | nil => rfl
      | cons x rest ih =>
        by_cases hx : x = d
        · subst hx
          simp [ih]
        · have hne : (Call.mk d E) ≠ ⟨x, E⟩ := fun hc => hx (congrArg Call.receiver hc).symm
          simp only [List.map_cons, List.count_cons_of_ne hne, List.count_cons_of_ne (Ne.symm hx),
            ih]
    · simp [Function.comp_def]
    · intro c hc
      obtain ⟨x, _, rfl⟩ := List.mem_map.1 hc
      rfl
  have hnp : ∀ (E : Event) (x : ErrorListener) (w' : World),
      (ErrorListener.handle x E w').panic = none := fun E x w' => by
    rw [ErrorListener.handle_eq]
  refine ⟨fun D _ => hgen D, ?_, ?_⟩
  · intro p d E w
    rw [ProxyErrorListener.handle_eq_forward]
    have hg := hgen ErrorListener ErrorListener.handle E p.delegates.elems d w
      (fun x _ w' => hnp E x w')
    exact ⟨hg.1, hg.2.2⟩
  · intro d E w
    rw [ProxyErrorListener.handle_eq_forward]
    exact (forward_of_no_panic ErrorListener.handle E [d, d] w (fun x _ w' => hnp E x w')).1

/-- Witness of C8: two quiet probes with the same tag around one with another
tag; the first is called twice, the other once. -/
theorem proxy_does_not_deduplicate_witness :
    (forward Probe.handle sampleEvent [Probe.quiet "a", Probe.quiet "b", Probe.quiet "a"]
        emptyWorld).calls.count ⟨Probe.quiet "a", sampleEvent⟩ = 2 ∧
      ((forward Probe.handle sampleEvent [Probe.quiet "a", Probe.quiet "b", Probe.quiet "a"]
        emptyWorld).calls.map Call.receiver).count (Probe.quiet "a") = 2 ∧
      ∀ c ∈ (forward Probe.handle sampleEvent [Probe.quiet "a", Probe.quiet "b", Probe.quiet "a"]
        emptyWorld).calls, c.event = sampleEvent :=
  proxy_does_not_deduplicate.1 Probe Probe.handle sampleEvent
    [Probe.quiet "a", Probe.quiet "b", Probe.quiet "a"] (Probe.quiet "a") emptyWorld
    (fun x hx w' => by
      simp only [List.mem_cons, List.mem_singleton, List.not_mem_nil, or_false] at hx
      rcases hx with rfl | rfl | rfl <;> rfl)

/-- C9: for every non-empty delegate sequence, whatever its elements, the
constructor does not fail and the listener it returns holds exactly that
sequence. -/
theorem NewProxyErrorListener_keeps_delegates (ds : List ErrorListener) (_hne : ds ≠ []) :
    ∃ p, NewProxyErrorListener (some ds) = .ok p ∧ p.delegates = some ds ∧
      p.delegates.len = ds.length ∧ p.delegates.elems = ds ∧
      ∀ v, NewProxyErrorListener (some ds) ≠ .error v := by
  refine ⟨⟨{}, some ds⟩, rfl, rfl, rfl, rfl, ?_⟩
  intro v hv
  have hok : NewProxyErrorListener (some ds) = .ok ⟨{}, some ds⟩ := rfl
  rw [hok] at hv
  cases hv

/-- Witness of C9: a sequence of two default listeners. -/
theorem NewProxyErrorListener_keeps_delegates_witness :
    ∃ p, NewProxyErrorListener (some [NewErrorListener, NewErrorListener]) = .ok p ∧
      p.delegates = some [NewErrorListener, NewErrorListener] ∧
      p.delegates.len = 2 ∧ p.delegates.elems = [NewErrorListener, NewErrorListener] ∧
      ∀ v, NewProxyErrorListener (some [NewErrorListener, NewErrorListener]) ≠ .error v :=
  NewProxyErrorListener_keeps_delegates [NewErrorListener, NewErrorListener] (by simp)

/-- C10: the proxy never originates a failure while forwarding.  For the
forwarding loop over delegates of any type: if no handler fails on the event the
loop does not fail, and a failure of the loop is the failure of one of its
delegates.  For every `ProxyErrorListener`, constructed or not: none of the four
operations fails, so none raises the error of the constructor. -/
theorem proxy_never_originates_failure :
    (∀ (D : Type) (h : Handler D) (E : Event) (ds : List D) (w : World),
      ((∀ d ∈ ds, ∀ w', (h d E w').panic = none) → (forward h E ds w).panic = none) ∧
      (∀ v, (forward h E ds w).panic = some v → ∃ d ∈ ds, ∃ w', (h d E w').panic = some v)) ∧
    (∀ (p : ProxyErrorListener) (E : Event) (w : World),
      (p.handle E w).panic = none ∧
      (p.handle E w).panic ≠ some "delegates is not provided") := by
  refine ⟨fun D h E ds w =>
    ⟨fun hok => (forward_of_no_panic h E ds w hok).2, fun v hv => forward_panic_origin h E ds w v hv⟩,
    ?_⟩
  intro p E w
  have hnone : (p.handle E w).panic = none := by
    rw [ProxyErrorListener.handle_eq_forward]
    exact (forward_of_no_panic ErrorListener.handle E _ w
      (fun d _ w' => by rw [ErrorListener.handle_eq])).2
  exact ⟨hnone, by rw [hnone]; exact fun hc => by cases hc⟩

/-- Witness of C10: a proxy built by the constructor over two default listeners
does not fail on a syntax error; a loop that fails does so with the value its
failing delegate raised. -/
theorem proxy_never_originates_failure_witness :
    (ProxyErrorListener.handle ⟨{}, some [{}, {}]⟩ sampleEvent emptyWorld).panic = none ∧
      ∃ d ∈ [Probe.quiet "a", Probe.failing "boom"], ∃ w',
        (Probe.handle d sampleEvent w').panic = some "boom" :=
  ⟨(proxy_never_originates_failure.2 ⟨{}, some [{}, {}]⟩ sampleEvent emptyWorld).1,
    (proxy_never_originates_failure.1 Probe Probe.handle sampleEvent
      [Probe.quiet "a", Probe.failing "boom"] emptyWorld).2 "boom" rfl⟩

/-- C11: each of the four operations leaves the delegate sequence of the proxy
as it was: after the call the `delegates` field is the same slice (same length,
same elements, same order), and a second identical call, made in the world the
first one left, makes the same delegate calls in the same order.  Last conjunct,
for the forwarding loop over delegates of any type, whether it fails or not: the
calls it makes are the delegates of an initial segment of the sequence, in
order. -/
theorem proxy_call_leaves_delegates_unchanged :
    (∀ (p : ProxyErrorListener) (E : Event) (w : World),
      (p.call E w).1.delegates = p.delegates ∧
      (p.call E w).1.delegates.len = p.delegates.len ∧
      (p.call E w).1.delegates.elems = p.delegates.elems ∧
      ((p.call E w).1.call E (p.call E w).2.world).2.calls = (p.call E w).2.calls ∧
      ((p.call E w).1.call E (p.call E w).2.world).1.delegates = p.delegates) ∧
    (∀ (D : Type) (h : Handler D) (E : Event) (ds : List D) (w : World),
      ∃ n, (forward h E ds w).calls = (ds.take n).map (fun d => Call.mk d E)) := by
  refine ⟨?_, fun D h E ds w => forward_calls_take h E ds w⟩
  intro p E w
  refine ⟨rfl, rfl, rfl, ?_, rfl⟩
  have hnp : ∀ (w0 : World), (forward ErrorListener.handle E p.delegates.elems w0).calls
      = p.delegates.elems.map (fun d => Call.mk d E) := fun w0 =>
    (forward_of_no_panic ErrorListener.handle E _ w0
      (fun d _ w' => by rw [ErrorListener.handle_eq])).1
  show (p.handle E (p.handle E w).world).calls = (p.handle E w).calls
  rw [ProxyErrorListener.handle_eq_forward, ProxyErrorListener.handle_eq_forward, hnp, hnp]

/-- C12: `ConsoleErrorListener` declares only `syntaxError`; for every argument
tuple its other three operations are those of the embedded `ErrorListener`,
return the world they were given and do not fail. -/
theorem ConsoleErrorListener_overrides_only_syntaxError :
    (∀ (c : ConsoleErrorListener) (recognizer offendingSymbol : Ref) (line column : Int)
        (msg : String) (e : Ref) (w : World),
        c.handle (.syntaxError recognizer offendingSymbol line column msg e) w
          = c.syntaxError recognizer offendingSymbol line column msg e w) ∧
    (∀ (c : ConsoleErrorListener) (recognizer dfa : Ref) (startIndex stopIndex : Int)
        (exact : Bool) (ambigAlts configs : Ref) (w : World),
        c.handle (.reportAmbiguity recognizer dfa startIndex stopIndex exact ambigAlts configs) w
          = c.toErrorListener.reportAmbiguity recognizer dfa startIndex stopIndex exact ambigAlts
              configs w ∧
        c.handle (.reportAmbiguity recognizer dfa startIndex stopIndex exact ambigAlts configs) w
          = ⟨w, none⟩) ∧
    (∀ (c : ConsoleErrorListener) (recognizer dfa : Ref) (startIndex stopIndex : Int)
        (conflictingAlts configs : Ref) (w : World),
        c.handle
            (.reportAttemptingFullContext recognizer dfa startIndex stopIndex conflictingAlts
              configs) w
          = c.toErrorListener.reportAttemptingFullContext recognizer dfa startIndex stopIndex
              conflictingAlts configs w ∧
        c.handle
            (.reportAttemptingFullContext recognizer dfa startIndex stopIndex conflictingAlts
              configs) w
          = ⟨w, none⟩) ∧
    (∀ (c : ConsoleErrorListener) (recognizer dfa : Ref) (startIndex stopIndex prediction : Int)
        (configs : Ref) (w : World),
        c.handle (.reportContextSensitivity recognizer dfa startIndex stopIndex prediction configs) w
          = c.toErrorListener.reportContextSensitivity recognizer dfa startIndex stopIndex
              prediction configs w ∧
        c.handle (.reportContextSensitivity recognizer dfa startIndex stopIndex prediction configs) w
          = ⟨w, none⟩) :=
  ⟨fun _ _ _ _ _ _ _ _ => rfl, fun _ _ _ _ _ _ _ _ _ => ⟨rfl, rfl⟩,
    fun _ _ _ _ _ _ _ _ => ⟨rfl, rfl⟩, fun _ _ _ _ _ _ _ _ => ⟨rfl, rfl⟩⟩

/-- C13: the delegates of a `ProxyErrorListener` are `ErrorListener` values, so
every forwarded call is a call of an empty method of `ErrorListener`: whatever
the delegate sequence (nil, empty or not) and the argument tuple, each of the
four proxy operations is the loop over `ErrorListener.handle`, returns the world
it was given and does not fail, which is the outcome of the same operation on
the default `ErrorListener`; every call it makes has an `ErrorListener` receiver
on which the operation does nothing. -/
theorem proxy_is_observationally_the_default_listener :
    ∀ (p : ProxyErrorListener) (E : Event) (w : World),
      p.handle E w = forward ErrorListener.handle E p.delegates.elems w ∧
      (p.handle E w).world = w ∧
      (p.handle E w).panic = none ∧
      (p.handle E w).world = (NewErrorListener.handle E w).world ∧
      (p.handle E w).panic = (NewErrorListener.handle E w).panic ∧
      ∀ c ∈ (p.handle E w).calls, ∀ w', ErrorListener.handle c.receiver c.event w' = ⟨w', none⟩ := by
  intro p E w
  have hw : ∀ (ds : List ErrorListener) (w0 : World),
      (forward ErrorListener.handle E ds w0).world = w0 := by
    intro ds
    induction ds with
    | nil => intro w0; rfl
    | cons d rest ih =>
      intro w0
      have hd : (ErrorListener.handle d E w0).panic = none := by rw [ErrorListener.handle_eq]
      rw [forward_cons_ok ErrorListener.handle E d rest w0 hd]
      show (forward ErrorListener.handle E rest (ErrorListener.handle d E w0).world).world = w0
      rw [ih, ErrorListener.handle_eq]
  have hp : (forward ErrorListener.handle E p.delegates.elems w).panic = none :=
    (forward_of_no_panic ErrorListener.handle E _ w
      (fun d _ w' => by rw [ErrorListener.handle_eq])).2
  rw [ProxyErrorListener.handle_eq_forward, ErrorListener.handle_eq]
  exact ⟨rfl, hw _ w, hp, hw _ w, hp, fun c _ w' => ErrorListener.handle_eq _ _ w'⟩

/-- C14: forwarding distributes over concatenation.  For the forwarding loop over
delegates of any type: when the loop over `xs` does not fail, the loop over
`xs ++ ys` makes the calls of the loop over `xs` followed by those of the loop
over `ys` started in the world the first one left, and ends as the second one
does; when the loop over `xs` fails, the loop over `xs ++ ys` is the loop over
`xs`.  For proxies `p`, `q` and `r`, where `r` holds the delegates of `p`
followed by those of `q`: each operation on `r` makes the calls of `p` followed
by those of `q`, and leaves the world and ends as `q` does after `p`. -/
theorem forwarding_distributes_over_concatenation :
    (∀ (D : Type) (h : Handler D) (E : Event) (xs ys : List D) (w : World),
      ((forward h E xs w).panic = none →
        forward h E (xs ++ ys) w =
          ⟨(forward h E xs w).calls ++ (forward h E ys (forward h E xs w).world).calls,
            (forward h E ys (forward h E xs w).world).world,
            (forward h E ys (forward h E xs w).world).panic⟩) ∧
      (∀ v, (forward h E xs w).panic = some v →
        forward h E (xs ++ ys) w = forward h E xs w)) ∧
    (∀ (p q r : ProxyErrorListener) (E : Event) (w : World),
      r.delegates.elems = p.delegates.elems ++ q.delegates.elems →
        (p.handle E w).panic = none ∧
        r.handle E w =
          ⟨(p.handle E w).calls ++ (q.handle E (p.handle E w).world).calls,
            (q.handle E (p.handle E w).world).world,
            (q.handle E (p.handle E w).world).panic⟩) := by
  have hgen : ∀ (D : Type) (h : Handler D) (E : Event) (xs ys : List D) (w : World),
      ((forward h E xs w).panic = none →
        forward h E (xs ++ ys) w =
          ⟨(forward h E xs w).calls ++ (forward h E ys (forward h E xs w).world).calls,
            (forward h E ys (forward h E xs w).world).world,
            (forward h E ys (forward h E xs w).world).panic⟩) ∧
      (∀ v, (forward h E xs w).panic = some v →
        forward h E (xs ++ ys) w = forward h E xs w) := by
    intro D h E xs ys w
    constructor
    · intro hok
      rw [forward_append, hok]
    · intro v hv
      rw [forward_append, hv]
  refine ⟨hgen, ?_⟩
  intro p q r E w hr
  have hp : (forward ErrorListener.handle E p.delegates.elems w).panic = none :=
    (forward_of_no_panic ErrorListener.handle E _ w
      (fun d _ w' => by rw [ErrorListener.handle_eq])).2
  simp only [ProxyErrorListener.handle_eq_forward]
  refine ⟨hp, ?_⟩
  rw [hr]
  exact (hgen ErrorListener ErrorListener.handle E _ _ w).1 hp

/-- Witness of C14: over `[a] ++ [failing, c]` the loop makes the call of the
first part, then aborts in the second; over `[failing] ++ [c]` it is the loop
over the first part; a proxy over two default listeners followed by one makes
three calls. -/
theorem forwarding_distributes_over_concatenation_witness :
    (forward Probe.handle sampleEvent ([Probe.quiet "a"] ++ [Probe.failing "boom", Probe.quiet "c"])
        emptyWorld
      = ⟨[⟨Probe.quiet "a", sampleEvent⟩, ⟨Probe.failing "boom", sampleEvent⟩], ⟨"", "a"⟩,
          some "boom"⟩) ∧
    (forward Probe.handle sampleEvent ([Probe.failing "boom"] ++ [Probe.quiet "c"]) emptyWorld
      = ⟨[⟨Probe.failing "boom", sampleEvent⟩], emptyWorld, some "boom"⟩) ∧
    (ProxyErrorListener.handle ⟨{}, some [{}, {}, {}]⟩ sampleEvent emptyWorld
      = ⟨[⟨{}, sampleEvent⟩, ⟨{}, sampleEvent⟩, ⟨{}, sampleEvent⟩], emptyWorld, none⟩) :=
  ⟨(forwarding_distributes_over_concatenation.1 Probe Probe.handle sampleEvent [Probe.quiet "a"]
      [Probe.failing "boom", Probe.quiet "c"] emptyWorld).1 rfl,
    (forwarding_distributes_over_concatenation.1 Probe Probe.handle sampleEvent
      [Probe.failing "boom"] [Probe.quiet "c"] emptyWorld).2 "boom" rfl,
    (forwarding_distributes_over_concatenation.2 ⟨{}, some [{}, {}]⟩ ⟨{}, some [{}]⟩
      ⟨{}, some [{}, {}, {}]⟩ sampleEvent emptyWorld rfl).2⟩

/-- C15: a delegate sequence that is present and has length 0 passes the nil
check of the constructor, and on the listener it returns (on any proxy whose
sequence is present and empty) each of the four operations, for every argument
tuple, calls no delegate, returns the world it was given and does not fail. -/
theorem empty_proxy_is_accepted_and_does_nothing :
    (∃ p, NewProxyErrorListener (some []) = .ok p ∧ p.delegates = some [] ∧
      p.delegates.len = 0 ∧
      ∀ (E : Event) (w : World), p.handle E w = ⟨[], w, none⟩) ∧
    (∀ (p : ProxyErrorListener), p.delegates = some [] →
      (∀ (E : Event) (w : World), p.handle E w = ⟨[], w, none⟩) ∧
      (∀ (recognizer offendingSymbol : Ref) (line column : Int) (msg : String) (e : Ref)
        (w : World),
        p.syntaxError recognizer offendingSymbol line column msg e w = ⟨[], w, none⟩) ∧
      (∀ (recognizer dfa : Ref) (startIndex stopIndex : Int) (exact : Bool)
        (ambigAlts configs : Ref) (w : World),
        p.reportAmbiguity recognizer dfa startIndex stopIndex exact ambigAlts configs w
          = ⟨[], w, none⟩) ∧
      (∀ (recognizer dfa : Ref) (startIndex stopIndex : Int) (conflictingAlts configs : Ref)
        (w : World),
        p.reportAttemptingFullContext recognizer dfa startIndex stopIndex conflictingAlts configs w
          = ⟨[], w, none⟩) ∧
      (∀ (recognizer dfa : Ref) (startIndex stopIndex prediction : Int) (configs : Ref)
        (w : World),
        p.reportContextSensitivity recognizer dfa startIndex stopIndex prediction configs w
          = ⟨[], w, none⟩)) := by
  have hempty : ∀ (p : ProxyErrorListener), p.delegates = some [] →
      ∀ (E : Event) (w : World), p.handle E w = ⟨[], w, none⟩ := by
    intro p hp E w
    rw [ProxyErrorListener.handle_eq_forward, hp]
    rfl
  refine ⟨⟨⟨{}, some []⟩, rfl, rfl, rfl, hempty _ rfl⟩, ?_⟩
  intro p hp
  refine ⟨hempty p hp, ?_, ?_, ?_, ?_⟩
  · intro recognizer offendingSymbol line column msg e w
    exact hempty p hp (.syntaxError recognizer offendingSymbol line column msg e) w
  · intro recognizer dfa startIndex stopIndex exact ambigAlts configs w
    exact hempty p hp
      (.reportAmbiguity recognizer dfa startIndex stopIndex exact ambigAlts configs) w
  · intro recognizer dfa startIndex stopIndex conflictingAlts configs w
    exact hempty p hp
      (.reportAttemptingFullContext recognizer dfa startIndex stopIndex conflictingAlts configs) w
  · intro recognizer dfa startIndex stopIndex prediction configs w
    exact hempty p hp
      (.reportContextSensitivity recognizer dfa startIndex stopIndex prediction configs) w

end Antlr4Error
